import Mathlib

/-!
# Verification of the VIN tracker backend (`src/server.js`)

Shallow embedding of the domain logic of the VIN tracker service:
VIN validation, the create/delete/search/stats handlers over the `vins`
table, the OCR text scan, and the Excel import/export reconciliation.

Conventions:
* The `vins` table is modelled as a `List VinRecord` (the storage engine
  itself is an external collaborator; its unique constraint on `code` is
  modelled by a membership test).
* Instants are milliseconds since the Unix epoch (`Int`), the session
  time zone is UTC; `civilFromDays`/`daysFromCivil` model the Gregorian
  calendar conversions performed by the date libraries of the host
  (PostgreSQL `DATE`/`EXTRACT` rendering, ECMAScript `Date`).
* JavaScript strings are modelled as `String`/`List Char`.
-/

/- ===================== VIN character class and validator ===================== -/

/-- The character class `[A-HJ-NPR-Z0-9]` shared by the two VIN regexes of
`src/server.js` (line 229, OCR scan, and line 720, validator): the ranges
A–H, J–N, the letter P, R–Z, and the digits 0–9. -/
def isVinChar (c : Char) : Bool :=
  (decide ('A' ≤ c) && decide (c ≤ 'H')) ||
  (decide ('J' ≤ c) && decide (c ≤ 'N')) ||
  (c == 'P') ||
  (decide ('R' ≤ c) && decide (c ≤ 'Z')) ||
  (decide ('0' ≤ c) && decide (c ≤ '9'))

/-- `isValidVIN` (src/server.js:719-722): `/^[A-HJ-NPR-Z0-9]{17}$/.test(vin)`.
The regex is anchored at both ends, so it accepts exactly the strings made of
17 characters of the class.  (JavaScript measures length in UTF-16 units; for
strings accepted by the anchored regex the two length notions coincide, and
any string containing a supplementary character is rejected by both sides.) -/
def isValidVIN (vin : String) : Bool :=
  vin.length == 17 && vin.data.all isVinChar

/-- C1 claim-side rendering of the alphabet: uppercase letters and digits,
excluding I, O, Q. -/
def ClaimVinChar (c : Char) : Prop :=
  (('A' ≤ c ∧ c ≤ 'Z') ∧ c ≠ 'I' ∧ c ≠ 'O' ∧ c ≠ 'Q') ∨ ('0' ≤ c ∧ c ≤ '9')

lemma char_le_iff_toNat (a b : Char) : a ≤ b ↔ a.toNat ≤ b.toNat := Iff.rfl

lemma char_eq_iff_toNat (a b : Char) : a = b ↔ a.toNat = b.toNat :=
  Char.ext_iff.trans UInt32.ext_iff

lemma isVinChar_iff_claim (c : Char) : isVinChar c = true ↔ ClaimVinChar c := by
  have hA : ('A').toNat = 65 := rfl
  have hH : ('H').toNat = 72 := rfl
  have hJ : ('J').toNat = 74 := rfl
  have hN : ('N').toNat = 78 := rfl
  have hP : ('P').toNat = 80 := rfl
  have hR : ('R').toNat = 82 := rfl
  have hZ : ('Z').toNat = 90 := rfl
  have h0 : ('0').toNat = 48 := rfl
  have h9 : ('9').toNat = 57 := rfl
  have hI : ('I').toNat = 73 := rfl
  have hO : ('O').toNat = 79 := rfl
  have hQ : ('Q').toNat = 81 := rfl
  simp only [isVinChar, ClaimVinChar, Bool.or_eq_true, Bool.and_eq_true,
    decide_eq_true_eq, beq_iff_eq, char_le_iff_toNat, char_eq_iff_toNat, ne_eq,
    hA, hH, hJ, hN, hP, hR, hZ, h0, h9, hI, hO, hQ]
  omega

/-- **C1.** `isValidVIN(s)` is true iff `s` has length exactly 17 and every
character of `s` belongs to the alphabet `[A-HJ-NPR-Z0-9]` (uppercase letters
and digits, excluding I, O, Q). -/
theorem isValidVIN_iff_length_and_alphabet (s : String) :
    isValidVIN s = true ↔ s.length = 17 ∧ ∀ c ∈ s.data, ClaimVinChar c := by
  simp only [isValidVIN, Bool.and_eq_true, beq_iff_eq, List.all_eq_true]
  constructor
  · rintro ⟨h1, h2⟩
    exact ⟨h1, fun c hc => (isVinChar_iff_claim c).mp (h2 c hc)⟩
  · rintro ⟨h1, h2⟩
    exact ⟨h1, fun c hc => (isVinChar_iff_claim c).mpr (h2 c hc)⟩

/- ===================== OCR: leftmost VIN-shaped substring ===================== -/

/-- Leftmost match of the global regex `/[A-HJ-NPR-Z0-9]{17}/` used by the
`POST /api/ocr/process` handler (src/server.js:229-230): the engine scans the
start positions left to right, and at each position `{17}` either consumes 17
consecutive class characters or fails (no shorter match exists). -/
def findVin : List Char → Option (List Char)
  | [] => none
  | c :: rest =>
    if ((c :: rest).take 17).length == 17 && ((c :: rest).take 17).all isVinChar
    then some ((c :: rest).take 17)
    else findVin rest

/-- Position `i` of `l` starts a 17-character window over the VIN alphabet. -/
def VinWindowAt (l : List Char) (i : Nat) : Prop :=
  ((l.drop i).take 17).length = 17 ∧ ∀ c ∈ (l.drop i).take 17, isVinChar c = true

instance (l : List Char) (i : Nat) : Decidable (VinWindowAt l i) := by
  unfold VinWindowAt; infer_instance

/-- C6 claim-side search: the first (smallest) start position carrying a
17-character window over the alphabet, if any. -/
def leftmostVinSub (l : List Char) : Option (List Char) :=
  ((List.range l.length).find? fun i => decide (VinWindowAt l i)).map
    fun i => (l.drop i).take 17

/-- The response shape of `POST /api/ocr/process`. -/
structure OcrResponse where
  success : Bool
  vin : Option String
  message : Option String
  allText : Option String
deriving DecidableEq, Repr

/-- `POST /api/ocr/process` (src/server.js:218-243), given the descriptions of
the `textAnnotations` returned by the external provider (the first annotation
is the full text). -/
def ocrProcess (textAnnotations : List String) : OcrResponse :=
  match textAnnotations with
  | [] =>
    { success := false, vin := none, message := some "Aucun texte détecté", allText := none }
  | fullText :: _ =>
    match findVin fullText.data with
    | some w =>
      { success := true, vin := some (String.mk w), message := none, allText := some fullText }
    | none =>
      { success := false, vin := none, message := some "Aucun VIN trouvé",
        allText := some fullText }

/-- C6 claim-side description of the handler: on the provider's full text,
return the leftmost 17-character substring over the alphabet when one exists
(`found` true with that substring and the full text); with no such substring,
`found` false together with the full text; with no text, `found` false and no
text. -/
def specOcr (textAnnotations : List String) : OcrResponse :=
  match textAnnotations with
  | [] =>
    { success := false, vin := none, message := some "Aucun texte détecté", allText := none }
  | fullText :: _ =>
    match leftmostVinSub fullText.data with
    | some w =>
      { success := true, vin := some (String.mk w), message := none, allText := some fullText }
    | none =>
      { success := false, vin := none, message := some "Aucun VIN trouvé",
        allText := some fullText }

lemma findVin_eq_leftmost (l : List Char) : findVin l = leftmostVinSub l := by
  induction l with
  | nil => rfl
  | cons c rest ih =>
    have hbool : ((((c :: rest).take 17).length == 17) && ((c :: rest).take 17).all isVinChar)
        = decide (VinWindowAt (c :: rest) 0) := by
      by_cases h0 : VinWindowAt (c :: rest) 0
      · rw [decide_eq_true h0]
        obtain ⟨h1, h2⟩ := h0
        simp only [List.drop_zero] at h1 h2
        simp only [Bool.and_eq_true, beq_iff_eq, List.all_eq_true]
        exact ⟨h1, h2⟩
      · rw [decide_eq_false h0]
        by_contra hne
        rw [Bool.not_eq_false, Bool.and_eq_true, beq_iff_eq, List.all_eq_true] at hne
        exact h0 ⟨hne.1, hne.2⟩
    have hstep : findVin (c :: rest)
        = if VinWindowAt (c :: rest) 0 then some ((c :: rest).take 17) else findVin rest := by
      rw [findVin, hbool]
      by_cases h0 : VinWindowAt (c :: rest) 0
      · rw [decide_eq_true h0, if_pos h0]; rfl
      · rw [decide_eq_false h0, if_neg h0]; rfl
    have hrhs : leftmostVinSub (c :: rest)
        = if VinWindowAt (c :: rest) 0 then some ((c :: rest).take 17)
          else leftmostVinSub rest := by
      unfold leftmostVinSub
      rw [List.length_cons, List.range_succ_eq_map]
      by_cases h0 : VinWindowAt (c :: rest) 0
      · have hfind : List.find? (fun i => decide (VinWindowAt (c :: rest) i))
            (0 :: List.map Nat.succ (List.range rest.length)) = some 0 :=
          List.find?_cons_of_pos _ (by simpa using h0)
        rw [hfind, if_pos h0]
        rfl
      · have hfind : List.find? (fun i => decide (VinWindowAt (c :: rest) i))
            (0 :: List.map Nat.succ (List.range rest.length))
            = List.find? (fun i => decide (VinWindowAt (c :: rest) i))
                (List.map Nat.succ (List.range rest.length)) :=
          List.find?_cons_of_neg _ (by simpa using h0)
        rw [hfind, if_neg h0]
        rw [List.find?_map]
        rw [show ((fun i => decide (VinWindowAt (c :: rest) i)) ∘ Nat.succ)
              = fun i => decide (VinWindowAt rest i) from rfl]
        rw [Option.map_map]
        rfl
    rw [hstep, hrhs]
    by_cases h0 : VinWindowAt (c :: rest) 0
    · rw [if_pos h0, if_pos h0]
    · rw [if_neg h0, if_neg h0, ih]

/-- **C6.** The OCR handler returns exactly the claim's description: the
leftmost 17-character substring of the provider's full text over the alphabet
`[A-HJ-NPR-Z0-9]` when one exists (success with that substring and the full
text), otherwise failure with the recovered full text, and failure with no
text when the provider returned no text. -/
theorem ocrProcess_eq_spec (textAnnotations : List String) :
    ocrProcess textAnnotations = specOcr textAnnotations := by
  cases textAnnotations with
  | nil => rfl
  | cons fullText rest =>
    show (match findVin fullText.data with
      | some w =>
        ({ success := true, vin := some (String.mk w), message := none,
           allText := some fullText } : OcrResponse)
      | none =>
        { success := false, vin := none, message := some "Aucun VIN trouvé",
          allText := some fullText }) = _
    rw [findVin_eq_leftmost]
    rfl

/- ===================== Instants and the Gregorian calendar ===================== -/

/-- A proleptic Gregorian calendar date. -/
structure Civil where
  year : Int
  month : Int
  day : Int
deriving DecidableEq, Repr

/-- Days since 1970-01-01 to civil date.  Models the calendar rendering done
by the external date libraries (PostgreSQL `DATE`/`EXTRACT`, ECMAScript
`Date`): century/quadrennium/year decomposition of the day of a 400-year era.
Proved inverse to `daysFromCivil` below and consistent with the ECMAScript
`MakeDay` formula (`jsMakeDay_eq_daysFromCivil`). -/
def civilFromDays (z : Int) : Civil :=
  let era := (z + 719468) / 146097
  let doe := (z + 719468) % 146097
  let c := if doe / 36524 ≤ 3 then doe / 36524 else 3
  let remc := doe - 36524 * c
  let q := remc / 1461
  let remy := remc - 1461 * q
  let yr := if remy / 365 ≤ 3 then remy / 365 else 3
  let doy := remy - 365 * yr
  let yoe := 100 * c + 4 * q + yr
  let mp := (5 * doy + 2) / 153
  let d := doy - (153 * mp + 2) / 5 + 1
  let m := if mp < 10 then mp + 3 else mp - 9
  let y := yoe + era * 400
  { year := if m ≤ 2 then y + 1 else y, month := m, day := d }

/-- Civil date to days since 1970-01-01 (standard era/year-of-era formula). -/
def daysFromCivil (y m d : Int) : Int :=
  let y' := if m ≤ 2 then y - 1 else y
  let era := y' / 400
  let yoe := y' - era * 400
  let mp := if m > 2 then m - 3 else m + 9
  let doy := (153 * mp + 2) / 5 + d - 1
  let doe := 365 * yoe + yoe / 4 - yoe / 100 + doy
  era * 146097 + doe - 719468

lemma daysFromCivil_core (y m d y' era yoe mp doy doe : Int)
    (k1 : y' = if m ≤ 2 then y - 1 else y)
    (k2 : era = y' / 400)
    (k3 : yoe = y' - era * 400)
    (k4 : mp = if m > 2 then m - 3 else m + 9)
    (k5 : doy = (153 * mp + 2) / 5 + d - 1)
    (k6 : doe = 365 * yoe + yoe / 4 - yoe / 100 + doy) :
    daysFromCivil y m d = era * 146097 + doe - 719468 := by
  subst k6 k5 k4 k3 k2 k1; rfl

lemma civilFromDays_core (z era doe c remc q remy yr doy yoe mp d m : Int)
    (h1 : era = (z + 719468) / 146097)
    (h2 : doe = (z + 719468) % 146097)
    (h3 : c = if doe / 36524 ≤ 3 then doe / 36524 else 3)
    (h4 : remc = doe - 36524 * c)
    (h5 : q = remc / 1461)
    (h6 : remy = remc - 1461 * q)
    (h7 : yr = if remy / 365 ≤ 3 then remy / 365 else 3)
    (h8 : doy = remy - 365 * yr)
    (h9 : yoe = 100 * c + 4 * q + yr)
    (h10 : mp = (5 * doy + 2) / 153)
    (h11 : d = doy - (153 * mp + 2) / 5 + 1)
    (h12 : m = if mp < 10 then mp + 3 else mp - 9) :
    civilFromDays z =
      { year := if m ≤ 2 then yoe + era * 400 + 1 else yoe + era * 400, month := m, day := d } := by
  subst h12 h11 h10 h9 h8 h7 h6 h5 h4 h3 h2 h1; rfl

set_option maxHeartbeats 1000000 in
/-- The two calendar conversions are mutually inverse (day number side). -/
theorem daysFromCivil_civilFromDays (z : Int) :
    daysFromCivil (civilFromDays z).year (civilFromDays z).month (civilFromDays z).day = z := by
  set era := (z + 719468) / 146097 with hera
  set doe := (z + 719468) % 146097 with hdoe
  set c := if doe / 36524 ≤ 3 then doe / 36524 else 3 with hc
  set remc := doe - 36524 * c with hremc
  set q := remc / 1461 with hq
  set remy := remc - 1461 * q with hremy
  set yr := if remy / 365 ≤ 3 then remy / 365 else 3 with hyr
  set doy := remy - 365 * yr with hdoy
  set yoe := 100 * c + 4 * q + yr with hyoe
  set mp := (5 * doy + 2) / 153 with hmp
  set d := doy - (153 * mp + 2) / 5 + 1 with hd
  set m := if mp < 10 then mp + 3 else mp - 9 with hm
  rw [civilFromDays_core z era doe c remc q remy yr doy yoe mp d m
    hera hdoe hc hremc hq hremy hyr hdoy hyoe hmp hd hm]
  have bdoe : 0 ≤ doe ∧ doe ≤ 146096 := by rw [hdoe]; omega
  have bc : 0 ≤ c ∧ c ≤ 3 := by rw [hc]; split_ifs <;> omega
  have bremc : 0 ≤ remc ∧ remc ≤ 36524 := by rw [hremc, hc]; split_ifs <;> omega
  have bq : 0 ≤ q ∧ q ≤ 24 := by rw [hq]; omega
  have bremy : 0 ≤ remy ∧ remy ≤ 1460 := by rw [hremy, hq]; omega
  have byr : 0 ≤ yr ∧ yr ≤ 3 := by rw [hyr]; split_ifs <;> omega
  have bdoy : 0 ≤ doy ∧ doy ≤ 365 := by rw [hdoy, hyr]; split_ifs <;> omega
  have byoe : 0 ≤ yoe ∧ yoe ≤ 399 := by omega
  have bmp : 0 ≤ mp ∧ mp ≤ 11 := by rw [hmp]; omega
  have hyoe4 : yoe / 4 = 25 * c + q := by rw [hyoe]; omega
  have hyoe100 : yoe / 100 = c := by rw [hyoe]; omega
  have hm2 : (if m > 2 then m - 3 else m + 9) = mp := by
    rw [hm]; split_ifs <;> omega
  have hy' : (if m ≤ 2 then
      (if m ≤ 2 then yoe + era * 400 + 1 else yoe + era * 400) - 1
      else (if m ≤ 2 then yoe + era * 400 + 1 else yoe + era * 400)) = yoe + era * 400 := by
    split_ifs <;> omega
  rw [daysFromCivil_core _ m d (yoe + era * 400) era yoe mp doy
      (365 * yoe + yoe / 4 - yoe / 100 + doy)
      hy'.symm (by omega) (by omega) hm2.symm (by omega) rfl]
  omega

/-- `civilFromDays` is injective (two day numbers with the same civil date
are equal). -/
lemma civilFromDays_injective {z1 z2 : Int} (h : civilFromDays z1 = civilFromDays z2) :
    z1 = z2 := by
  have h1 := daysFromCivil_civilFromDays z1
  have h2 := daysFromCivil_civilFromDays z2
  rw [h] at h1
  omega

/- ECMAScript `Date` arithmetic (ECMA-262 MakeDay / MakeDate), used by the
handlers through `new Date(...)`. -/

/-- ECMA-262 `DayFromYear`. -/
def jsDayFromYear (y : Int) : Int :=
  365 * (y - 1970) + (y - 1969) / 4 - (y - 1901) / 100 + (y - 1601) / 400

/-- ECMA-262 `InLeapYear`. -/
def jsInLeapYear (y : Int) : Bool :=
  (y % 4 == 0 && y % 100 != 0) || y % 400 == 0

/-- Days before month `m` (0-based) within a year. -/
def jsDayWithinYearToMonth (m : Int) (leap : Bool) : Int :=
  (if m ≤ 0 then 0
   else if m = 1 then 31
   else if m = 2 then 59
   else if m = 3 then 90
   else if m = 4 then 120
   else if m = 5 then 151
   else if m = 6 then 181
   else if m = 7 then 212
   else if m = 8 then 243
   else if m = 9 then 273
   else if m = 10 then 304
   else 334) + (if leap && decide (2 ≤ m) then 1 else 0)

/-- ECMA-262 `MakeDay(y, m, d)` (month 0-based, overflowing values roll over). -/
def jsMakeDay (y m d : Int) : Int :=
  jsDayFromYear (y + m / 12) +
    jsDayWithinYearToMonth (m % 12) (jsInLeapYear (y + m / 12)) + d - 1

/-- The instant (ms since epoch, UTC session) of `new Date(y, m, d, h, mi, s)`. -/
def jsDateCtor (y m d h mi s : Int) : Int :=
  jsMakeDay y m d * 86400000 + (h * 3600000 + mi * 60000 + s * 1000)

set_option maxHeartbeats 1000000 in
/-- The ECMAScript day computation agrees with the era-based civil formula on
in-range months (`new Date(y, m-1, d)` lands on civil `(y, m, d)`). -/
lemma jsMakeDay_eq_daysFromCivil (y m d : Int) (h1 : 1 ≤ m) (h2 : m ≤ 12) :
    jsMakeDay y (m - 1) d = daysFromCivil y m d := by
  interval_cases m <;>
    (unfold jsMakeDay jsDayFromYear jsDayWithinYearToMonth jsInLeapYear daysFromCivil
     norm_num
     (try split_ifs) <;> omega)

/-- Witness for `jsMakeDay_eq_daysFromCivil` at 2025-05-30. -/
theorem jsMakeDay_eq_daysFromCivil_witness :
    (1 : Int) ≤ 5 ∧ (5 : Int) ≤ 12 ∧ jsMakeDay 2025 (5 - 1) 30 = daysFromCivil 2025 5 30 :=
  ⟨by decide, by decide, jsMakeDay_eq_daysFromCivil 2025 5 30 (by decide) (by decide)⟩

/-- PostgreSQL/ECMAScript instants: milliseconds since the Unix epoch. -/
def msPerDay : Int := 86400000

/-- The day number of an instant (`DATE(ts)` in the UTC session). -/
def dayNumber (t : Int) : Int := t / msPerDay

/-- Milliseconds since local midnight of an instant. -/
def msOfDay (t : Int) : Int := t % msPerDay

/-- Civil date of an instant. -/
def civilOfInstant (t : Int) : Civil := civilFromDays (dayNumber t)

/- ===================== The `vins` table and POST /api/vins ===================== -/

/-- A row of the `vins` table (src/server.js:140-149): `date_created` is the
client-supplied "recorded" timestamp, `created_at` the insertion timestamp. -/
structure VinRecord where
  id : Nat
  code : String
  dateCreated : Int
  userAgent : Option String
  ipAddress : Option String
  createdAt : Int
deriving DecidableEq, Repr

/-- JavaScript `toUpperCase()` (ASCII range; VIN codes are ASCII). -/
def upper (s : String) : String := String.mk (s.data.map Char.toUpper)

/-- Outcome of the `POST /api/vins` handler. -/
inductive CreateOutcome where
  | created (record : VinRecord)   -- HTTP 201
  | badRequest                     -- HTTP 400, 'Code VIN invalide ou manquant'
  | conflict                       -- HTTP 409, duplicate code
deriving DecidableEq, Repr

/-- `POST /api/vins` (src/server.js:273-321): reject when `code` is absent,
empty (falsy) or fails `isValidVIN` **as submitted**; otherwise insert
`code.toUpperCase()`, defaulting `date_created` to now; a violation of the
unique constraint `vins_code_key` (an existing row with the same code)
answers 409. -/
def postVins (store : List VinRecord) (nextId : Nat) (now : Int)
    (code : Option String) (date : Option Int) (userAgent : Option String)
    (ipAddress : Option String) : CreateOutcome × List VinRecord :=
  match code with
  | none => (.badRequest, store)
  | some c =>
    if c = "" ∨ ¬ isValidVIN c then (.badRequest, store)
    else if store.any (fun r => r.code == upper c) then (.conflict, store)
    else
      let r : VinRecord :=
        { id := nextId, code := upper c, dateCreated := date.getD now,
          userAgent := userAgent, ipAddress := ipAddress, createdAt := now }
      (.created r, store ++ [r])

/-- A stored record used by the concrete scenarios. -/
def sampleRecord : VinRecord :=
  { id := 1, code := "1HGCM82633A123456", dateCreated := 0,
    userAgent := none, ipAddress := none, createdAt := 0 }

/-- **C2, counterexample.** The claim says a create request whose code is a
lowercase spelling of an existing code yields the conflict outcome (409).  In
the code, `isValidVIN` runs on the code **as submitted**, before the uppercase
normalization, so the lowercase spelling is rejected with 400, not 409 —
even though its normalization equals the stored code. -/
theorem create_lowercase_duplicate_is_badRequest :
    postVins [sampleRecord] 2 1000 (some "1hgcm82633a123456") none none none
        = (CreateOutcome.badRequest, [sampleRecord])
    ∧ upper "1hgcm82633a123456" = sampleRecord.code
    ∧ CreateOutcome.badRequest ≠ CreateOutcome.conflict := by
  refine ⟨?_, by decide, by decide⟩
  decide

/-- **C2, amended.** For every create request whose code passes `isValidVIN`
as submitted: if the store already holds a record whose code equals the
uppercase normalization of the request code, the handler answers 409 and adds
no row; otherwise it persists exactly the normalized (uppercase) code.
(Requests failing `isValidVIN` as submitted — in particular any lowercase
spelling — are rejected with 400 before any persistence attempt.) -/
theorem create_valid_code_conflict_or_normalized_insert
    (store : List VinRecord) (nextId : Nat) (now : Int) (c : String)
    (date : Option Int) (ua ip : Option String)
    (hvalid : isValidVIN c = true) :
    ((∃ r ∈ store, r.code = upper c) →
        postVins store nextId now (some c) date ua ip = (CreateOutcome.conflict, store))
    ∧ ((¬ ∃ r ∈ store, r.code = upper c) →
        postVins store nextId now (some c) date ua ip
          = (CreateOutcome.created
              { id := nextId, code := upper c, dateCreated := date.getD now,
                userAgent := ua, ipAddress := ip, createdAt := now },
             store ++
              [{ id := nextId, code := upper c, dateCreated := date.getD now,
                 userAgent := ua, ipAddress := ip, createdAt := now }])) := by
  have hne : ¬ (c = "" ∨ ¬ isValidVIN c = true) := by
    rintro (rfl | hn)
    · exact absurd hvalid (by decide)
    · exact hn hvalid
  have hany : (store.any fun r => r.code == upper c) = true ↔ ∃ r ∈ store, r.code = upper c := by
    rw [List.any_eq_true]
    constructor
    · rintro ⟨r, hr, hb⟩; exact ⟨r, hr, by simpa using hb⟩
    · rintro ⟨r, hr, hb⟩; exact ⟨r, hr, by simpa using hb⟩
  constructor
  · intro hdup
    show (if c = "" ∨ ¬ isValidVIN c then _ else _) = _
    rw [if_neg hne, if_pos (hany.mpr hdup)]
  · intro hnodup
    show (if c = "" ∨ ¬ isValidVIN c then _ else _) = _
    rw [if_neg hne, if_neg (fun hb => hnodup (hany.mp hb))]

/-- Witness for `create_valid_code_conflict_or_normalized_insert`: the valid
uppercase spelling of the stored sample code is answered with 409. -/
theorem create_valid_code_conflict_witness :
    postVins [sampleRecord] 2 1000 (some "1HGCM82633A123456") none none none
      = (CreateOutcome.conflict, [sampleRecord]) :=
  (create_valid_code_conflict_or_normalized_insert [sampleRecord] 2 1000
      "1HGCM82633A123456" none none none (by decide)).1
    ⟨sampleRecord, by decide, by decide⟩

/- ===================== DELETE /api/vins/:id ===================== -/

def isDigitCh (c : Char) : Bool := decide ('0' ≤ c) && decide (c ≤ '9')

def isHexCh (c : Char) : Bool :=
  isDigitCh c || (decide ('a' ≤ c) && decide (c ≤ 'f')) || (decide ('A' ≤ c) && decide (c ≤ 'F'))

def isOctCh (c : Char) : Bool := decide ('0' ≤ c) && decide (c ≤ '7')

def isBinCh (c : Char) : Bool := c == '0' || c == '1'

/-- ECMAScript `StrWhiteSpaceChar` (the characters stripped by `ToNumber`). -/
def jsWhitespace (c : Char) : Bool :=
  c == ' ' || c == '\t' || c == '\n' || c == '\r' ||
  c.toNat == 0xB || c.toNat == 0xC || c.toNat == 0xA0 || c.toNat == 0xFEFF ||
  c.toNat == 0x2028 || c.toNat == 0x2029

def jsTrim (l : List Char) : List Char :=
  ((l.dropWhile jsWhitespace).reverse.dropWhile jsWhitespace).reverse

/-- `ExponentPart?` at the end of a decimal literal: empty, or e/E sign? digits+. -/
def jsExpTail (l : List Char) : Bool :=
  match l with
  | [] => true
  | c :: rest =>
    (c == 'e' || c == 'E') &&
    (match rest with
     | '+' :: ds => !ds.isEmpty && ds.all isDigitCh
     | '-' :: ds => !ds.isEmpty && ds.all isDigitCh
     | ds => !ds.isEmpty && ds.all isDigitCh)

/-- `StrUnsignedDecimalLiteral`: `Infinity`, `digits [. digits?] exp?`, or
`. digits+ exp?`. -/
def jsDecimalLiteral (l : List Char) : Bool :=
  if l = "Infinity".data then true
  else
    match l.takeWhile isDigitCh, l.dropWhile isDigitCh with
    | [], '.' :: r2 =>
      let frac := r2.takeWhile isDigitCh
      !frac.isEmpty && jsExpTail (r2.dropWhile isDigitCh)
    | [], _ => false
    | _ :: _, [] => true
    | _ :: _, '.' :: r2 => jsExpTail (r2.dropWhile isDigitCh)
    | _ :: _, rest => jsExpTail rest

/-- `StrNumericLiteral` (full match), for a trimmed non-empty string. -/
def jsNumericLiteral (l : List Char) : Bool :=
  match l with
  | '+' :: rest => jsDecimalLiteral rest
  | '-' :: rest => jsDecimalLiteral rest
  | '0' :: 'x' :: rest => !rest.isEmpty && rest.all isHexCh
  | '0' :: 'X' :: rest => !rest.isEmpty && rest.all isHexCh
  | '0' :: 'o' :: rest => !rest.isEmpty && rest.all isOctCh
  | '0' :: 'O' :: rest => !rest.isEmpty && rest.all isOctCh
  | '0' :: 'b' :: rest => !rest.isEmpty && rest.all isBinCh
  | '0' :: 'B' :: rest => !rest.isEmpty && rest.all isBinCh
  | _ => jsDecimalLiteral l

/-- JavaScript `isNaN(s)` for a string: `ToNumber(s)` is NaN iff the trimmed
string is non-empty and fails the numeric-literal grammar (an empty or
all-whitespace string converts to 0). -/
def jsToNumberIsNaN (s : String) : Bool :=
  let t := jsTrim s.data
  !t.isEmpty && !jsNumericLiteral t

/-- Outcomes of `DELETE /api/vins/:id`. -/
inductive DeleteOutcome where
  | badRequest               -- HTTP 400, 'ID de VIN invalide'
  | notFound                 -- HTTP 404, 'VIN non trouvé'
  | deleted (r : VinRecord)  -- HTTP 200 with the prior row
  | storageError             -- HTTP 500 (storage engine raised, e.g. cast failure)
deriving DecidableEq, Repr

/-- `DELETE /api/vins/:id` (src/server.js:324-360): reject with 400 when the
path parameter is falsy or `isNaN(...)`; otherwise query the store for the
row (the engine's cast of the parameter to the integer key is the external
`castId`), answer 404 when absent, else delete and return the prior row. -/
def deleteVins (castId : String → Option Int) (store : List VinRecord)
    (idParam : String) : DeleteOutcome × List VinRecord :=
  if idParam == "" || jsToNumberIsNaN idParam then (.badRequest, store)
  else
    match castId idParam with
    | none => (.storageError, store)
    | some n =>
      match store.find? (fun r => (r.id : Int) == n) with
      | none => (.notFound, store)
      | some r => (.deleted r, store.filter (fun x => !((x.id : Int) == n)))

/-- **C10.** A delete request whose id path parameter is not numeric (its
`ToNumber` coercion is NaN) is rejected with 400 — not 404 — and the store is
neither modified nor consulted: the outcome is the same for every store and
for every behavior `castId` of the storage engine. -/
theorem delete_nonNumeric_id_is_badRequest (castId : String → Option Int)
    (store : List VinRecord) (idParam : String)
    (h : jsToNumberIsNaN idParam = true) :
    deleteVins castId store idParam = (DeleteOutcome.badRequest, store)
    ∧ DeleteOutcome.badRequest ≠ DeleteOutcome.notFound := by
  refine ⟨?_, by decide⟩
  unfold deleteVins
  rw [h, Bool.or_true]
  rfl

/-- Witness for `delete_nonNumeric_id_is_badRequest` at id `"abc"`. -/
theorem delete_nonNumeric_id_is_badRequest_witness :
    deleteVins (fun _ => none) [sampleRecord] "abc" = (DeleteOutcome.badRequest, [sampleRecord])
    ∧ DeleteOutcome.badRequest ≠ DeleteOutcome.notFound :=
  delete_nonNumeric_id_is_badRequest (fun _ => none) [sampleRecord] "abc" (by decide)

/- ===================== GET /api/vins/search ===================== -/

lemma char_toNat_ofNat_of_lt (n : Nat) (h : n < 0xD800) : (Char.ofNat n).toNat = n := by
  have hv : n.isValidChar := Or.inl h
  simp [Char.ofNat, hv, Char.ofNatAux, Char.toNat, UInt32.toNat, BitVec.toNat_ofNatLt]

lemma char_toUpper_idem (c : Char) : (c.toUpper).toUpper = c.toUpper := by
  show Char.toUpper (Char.toUpper c) = Char.toUpper c
  unfold Char.toUpper
  simp only
  by_cases h : c.toNat ≥ 97 ∧ c.toNat ≤ 122
  · rw [if_pos h]
    have hn : (Char.ofNat (c.toNat - 32)).toNat = c.toNat - 32 :=
      char_toNat_ofNat_of_lt _ (by omega)
    rw [if_neg (by omega)]
  · rw [if_neg h, if_neg h]

def upperL (l : List Char) : List Char := l.map Char.toUpper

/-- LIKE patterns, tokenized: `%` (any sequence), `_` (any one character),
and literal characters (`\\` escapes the following character). -/
inductive LikeTok where
  | any
  | one
  | lit (c : Char)
deriving DecidableEq, Repr

/-- Tokenize a SQL LIKE pattern (escape character `\\`).  (PostgreSQL rejects
a pattern ending in a lone escape; the handler's patterns `%...%` never do.) -/
def likeToks : List Char → List LikeTok
  | [] => []
  | p :: ps =>
    if p = '%' then .any :: likeToks ps
    else if p = '_' then .one :: likeToks ps
    else if p = '\\' then
      match ps with
      | [] => [.lit '\\']
      | p2 :: ps2 => .lit p2 :: likeToks ps2
    else .lit p :: likeToks ps

/-- Run a tokenized LIKE pattern against a string. -/
def likeRun : List LikeTok → List Char → Bool
  | [], s => s.isEmpty
  | .any :: ts, s => (List.range (s.length + 1)).any fun k => likeRun ts (s.drop k)
  | .one :: _, [] => false
  | .one :: ts, _ :: s2 => likeRun ts s2
  | .lit _ :: _, [] => false
  | .lit p :: ts, c :: s2 => p == c && likeRun ts s2

/-- SQL LIKE matching. -/
def likeMatch (p s : List Char) : Bool := likeRun (likeToks p) s

/-- PostgreSQL `ILIKE`: LIKE matching after case-folding both sides. -/
def ilike (pat s : String) : Bool := likeMatch (upperL pat.data) (upperL s.data)

/-- C7 claim-side query condition: `q` occurs in `code` as a case-insensitive
substring. -/
def SubstrCI (q code : String) : Prop := upperL q.data <:+: upperL code.data

instance (q code : String) : Decidable (SubstrCI q code) := by
  unfold SubstrCI; infer_instance

/-- `q` contains none of the LIKE metacharacters `%`, `_`, `\\`. -/
def NoLikeMeta (q : String) : Prop := ∀ c ∈ q.data, c ≠ '%' ∧ c ≠ '_' ∧ c ≠ '\\'

instance (q : String) : Decidable (NoLikeMeta q) := by
  unfold NoLikeMeta; infer_instance

/-- The WHERE clause of `GET /api/vins/search` (src/server.js:363-402), per
filter: a truthy `q` adds `code ILIKE '%' + q.toUpperCase() + '%'`. -/
def queryPass (q : Option String) (r : VinRecord) : Bool :=
  match q with
  | none => true
  | some qs => if qs = "" then true else ilike ("%" ++ upper qs ++ "%") r.code

/-- A truthy `dateFrom` adds `DATE(date_created) >= dateFrom` (the date
parameter is modelled after the engine's cast, as a day number). -/
def fromPass (dateFrom : Option Int) (r : VinRecord) : Bool :=
  match dateFrom with
  | none => true
  | some df => decide (df ≤ dayNumber r.dateCreated)

/-- A truthy `dateTo` adds `DATE(date_created) <= dateTo`. -/
def toPass (dateTo : Option Int) (r : VinRecord) : Bool :=
  match dateTo with
  | none => true
  | some dt => decide (dayNumber r.dateCreated ≤ dt)

def searchFilter (q : Option String) (dateFrom dateTo : Option Int) (r : VinRecord) : Bool :=
  queryPass q r && fromPass dateFrom r && toPass dateTo r

/-- `GET /api/vins/search` (src/server.js:363-402): rows passing all provided
filters, ordered by `created_at` descending. -/
def searchVins (store : List VinRecord) (q : Option String)
    (dateFrom dateTo : Option Int) : List VinRecord :=
  (store.filter (searchFilter q dateFrom dateTo)).mergeSort
    fun a b => decide (b.createdAt ≤ a.createdAt)
lemma likeRun_any_iff (ts : List LikeTok) (s : List Char) :
    likeRun (.any :: ts) s = true ↔ ∃ k, likeRun ts (s.drop k) = true := by
  show ((List.range (s.length + 1)).any fun k => likeRun ts (s.drop k)) = true ↔ _
  rw [List.any_eq_true]
  constructor
  · rintro ⟨k, _, hk⟩; exact ⟨k, hk⟩
  · rintro ⟨k, hk⟩
    by_cases hle : k ≤ s.length
    · exact ⟨k, List.mem_range.mpr (by omega), hk⟩
    · refine ⟨s.length, List.mem_range.mpr (by omega), ?_⟩
      rw [List.drop_eq_nil_of_le (le_refl _)]
      rwa [List.drop_eq_nil_of_le (by omega)] at hk

lemma likeToks_plain_cons (p : Char) (ps : List Char)
    (h1 : p ≠ '%') (h2 : p ≠ '_') (h3 : p ≠ '\\') :
    likeToks (p :: ps) = .lit p :: likeToks ps := by
  rw [likeToks.eq_def]
  simp only [if_neg h1, if_neg h2, if_neg h3]

lemma likeToks_nonmeta_append (lit rest : List Char)
    (h : ∀ c ∈ lit, c ≠ '%' ∧ c ≠ '_' ∧ c ≠ '\\') :
    likeToks (lit ++ rest) = lit.map LikeTok.lit ++ likeToks rest := by
  induction lit with
  | nil => rfl
  | cons c l ih =>
    obtain ⟨h1, h2, h3⟩ := h c (List.mem_cons_self c l)
    rw [List.cons_append, likeToks_plain_cons c _ h1 h2 h3,
      ih (fun x hx => h x (List.mem_cons_of_mem c hx)), List.map_cons, List.cons_append]

lemma likeRun_lits_any_iff (lit s : List Char) :
    likeRun (lit.map LikeTok.lit ++ [.any]) s = true ↔ lit <+: s := by
  induction lit generalizing s with
  | nil =>
    simp only [List.map_nil, List.nil_append]
    rw [likeRun_any_iff]
    constructor
    · intro _; exact List.nil_prefix
    · intro _
      exact ⟨s.length, by rw [List.drop_eq_nil_of_le (le_refl _)]; rfl⟩
  | cons c l ih =>
    cases s with
    | nil =>
      simp only [List.map_cons, List.cons_append]
      constructor
      · intro hfalse; exact absurd hfalse (by rw [show likeRun (.lit c :: (l.map .lit ++ [.any])) [] = false from rfl]; decide)
      · intro hpre
        exact absurd (List.prefix_nil.mp hpre) (by simp)
    | cons c2 s2 =>
      simp only [List.map_cons, List.cons_append]
      rw [show likeRun (.lit c :: (l.map .lit ++ [.any])) (c2 :: s2)
            = (c == c2 && likeRun (l.map .lit ++ [.any]) s2) from rfl]
      rw [Bool.and_eq_true, beq_iff_eq, ih, List.cons_prefix_cons]

lemma exists_prefix_drop_iff_substring (lit s : List Char) :
    (∃ k, lit <+: s.drop k) ↔ lit <:+: s := by
  constructor
  · rintro ⟨k, hk⟩
    exact List.infix_iff_prefix_suffix.mpr ⟨s.drop k, hk, List.drop_suffix k s⟩
  · intro hinf
    obtain ⟨pre, post, hs⟩ := hinf
    refine ⟨pre.length, ?_⟩
    rw [← hs, List.append_assoc, List.drop_left]
    exact List.prefix_append lit post

lemma likeMatch_wrap_iff (lit s : List Char)
    (h : ∀ c ∈ lit, c ≠ '%' ∧ c ≠ '_' ∧ c ≠ '\\') :
    likeMatch ('%' :: (lit ++ ['%'])) s = true ↔ lit <:+: s := by
  unfold likeMatch
  have htok : likeToks ('%' :: (lit ++ ['%'])) = .any :: likeToks (lit ++ ['%']) := by
    rw [likeToks.eq_def]
    exact if_pos rfl
  rw [htok, likeToks_nonmeta_append lit ['%'] h,
    show likeToks ['%'] = [.any] from rfl]
  rw [likeRun_any_iff]
  have : ∀ k, likeRun (lit.map LikeTok.lit ++ [.any]) (s.drop k) = true ↔ lit <+: s.drop k :=
    fun k => likeRun_lits_any_iff lit (s.drop k)
  constructor
  · rintro ⟨k, hk⟩
    exact (exists_prefix_drop_iff_substring lit s).mp ⟨k, (this k).mp hk⟩
  · intro hinf
    obtain ⟨k, hk⟩ := (exists_prefix_drop_iff_substring lit s).mpr hinf
    exact ⟨k, (this k).mpr hk⟩

lemma nonmeta_toUpper (c : Char) (h : c ≠ '%' ∧ c ≠ '_' ∧ c ≠ '\\') :
    c.toUpper ≠ '%' ∧ c.toUpper ≠ '_' ∧ c.toUpper ≠ '\\' := by
  have h37 : ('%').toNat = 37 := rfl
  have h95 : ('_').toNat = 95 := rfl
  have h92 : ('\\').toNat = 92 := rfl
  show Char.toUpper c ≠ '%' ∧ Char.toUpper c ≠ '_' ∧ Char.toUpper c ≠ '\\'
  unfold Char.toUpper
  simp only
  by_cases hl : c.toNat ≥ 97 ∧ c.toNat ≤ 122
  · rw [if_pos hl]
    have hn := char_toNat_ofNat_of_lt (c.toNat - 32) (by omega)
    refine ⟨?_, ?_, ?_⟩ <;> (rw [ne_eq, char_eq_iff_toNat, hn]; omega)
  · rw [if_neg hl]; exact h

lemma ilike_wrap_iff_substr (qs code : String) (h : NoLikeMeta qs) :
    ilike ("%" ++ upper qs ++ "%") code = true ↔ SubstrCI qs code := by
  unfold ilike SubstrCI
  have hdata : ("%" ++ upper qs ++ "%").data = '%' :: ((upper qs).data ++ ['%']) := by
    rw [String.data_append, String.data_append]; rfl
  have hup : (upper qs).data = upperL qs.data := rfl
  have hupperdata : upperL ("%" ++ upper qs ++ "%").data
      = '%' :: (upperL (upperL qs.data) ++ ['%']) := by
    rw [hdata, hup]
    show List.map Char.toUpper ('%' :: (upperL qs.data ++ ['%']))
      = '%' :: (upperL (upperL qs.data) ++ ['%'])
    rw [List.map_cons, List.map_append]
    rfl
  have hidem : upperL (upperL qs.data) = upperL qs.data := by
    unfold upperL
    rw [List.map_map]
    exact List.map_congr_left fun a _ => char_toUpper_idem a
  rw [hupperdata, hidem]
  exact likeMatch_wrap_iff (upperL qs.data) (upperL code.data)
    (fun c hc => by
      obtain ⟨c0, hc0, rfl⟩ := List.mem_map.mp hc
      exact nonmeta_toUpper c0 (h c0 hc0))

lemma queryPass_iff (q : Option String) (r : VinRecord)
    (hq : ∀ qs, q = some qs → NoLikeMeta qs) :
    queryPass q r = true ↔ ∀ qs, q = some qs → SubstrCI qs r.code := by
  cases q with
  | none => simp [queryPass]
  | some qs =>
    have hmeta := hq qs rfl
    by_cases he : qs = ""
    · subst he
      rw [show queryPass (some "") r = true from rfl]
      simp only [true_iff]
      rintro qs2 hqs2
      cases hqs2
      exact List.nil_infix
    · rw [show queryPass (some qs) r = ilike ("%" ++ upper qs ++ "%") r.code from by
        simp [queryPass, he]]
      rw [ilike_wrap_iff_substr qs r.code hmeta]
      constructor
      · rintro hs qs2 hqs2; cases hqs2; exact hs
      · intro hall; exact hall qs rfl

lemma fromPass_iff (dateFrom : Option Int) (r : VinRecord) :
    fromPass dateFrom r = true ↔ ∀ df, dateFrom = some df → df ≤ dayNumber r.dateCreated := by
  cases dateFrom with
  | none => simp [fromPass]
  | some df =>
    simp only [fromPass, decide_eq_true_eq]
    constructor
    · rintro h df2 hdf2; cases hdf2; exact h
    · intro h; exact h df rfl

lemma toPass_iff (dateTo : Option Int) (r : VinRecord) :
    toPass dateTo r = true ↔ ∀ dt, dateTo = some dt → dayNumber r.dateCreated ≤ dt := by
  cases dateTo with
  | none => simp [toPass]
  | some dt =>
    simp only [toPass, decide_eq_true_eq]
    constructor
    · rintro h dt2 hdt2; cases hdt2; exact h
    · intro h; exact h dt rfl

/-- **C7, counterexample.** The claim reads the query filter as a
case-insensitive *substring* match.  The handler interpolates `q` into an
ILIKE pattern, so LIKE metacharacters in `q` keep their wildcard meaning:
searching for `1_G` returns the sample record even though `1_G` is not a
substring of its code (the `_` matched the `H`). -/
theorem search_wildcard_query_counterexample :
    searchVins [sampleRecord] (some "1_G") none none = [sampleRecord]
    ∧ ¬ SubstrCI "1_G" sampleRecord.code := by
  constructor
  · have hf : List.filter (searchFilter (some "1_G") none none) [sampleRecord]
        = [sampleRecord] := by decide
    unfold searchVins
    rw [hf]
    exact List.mergeSort_of_sorted (List.pairwise_singleton _ _)
  · decide

/-- **C7, amended.** With the three filters optional and conjunctive, and for
query strings free of LIKE metacharacters (`%`, `_`, `\`), search returns
exactly the records satisfying: `q` a case-insensitive substring of `code`,
and the date filters bounding the date component of `recordedAt` inclusively;
the result is ordered by `createdAt` descending.  (For `q` containing LIKE
metacharacters, the query condition is ILIKE pattern matching instead of
substring containment.) -/
theorem search_conjunctive_filters_ordered (store : List VinRecord)
    (q : Option String) (dateFrom dateTo : Option Int)
    (hq : ∀ qs, q = some qs → NoLikeMeta qs) :
    (∀ r, r ∈ searchVins store q dateFrom dateTo ↔
      r ∈ store
      ∧ (∀ qs, q = some qs → SubstrCI qs r.code)
      ∧ (∀ df, dateFrom = some df → df ≤ dayNumber r.dateCreated)
      ∧ (∀ dt, dateTo = some dt → dayNumber r.dateCreated ≤ dt))
    ∧ List.Pairwise (fun a b => b.createdAt ≤ a.createdAt)
        (searchVins store q dateFrom dateTo) := by
  constructor
  · intro r
    unfold searchVins
    rw [List.mem_mergeSort, List.mem_filter]
    unfold searchFilter
    rw [Bool.and_eq_true, Bool.and_eq_true]
    rw [and_assoc]
    constructor
    · rintro ⟨hm, hqp, hfp, htp⟩
      exact ⟨hm, (queryPass_iff q r hq).mp hqp, (fromPass_iff dateFrom r).mp hfp,
        (toPass_iff dateTo r).mp htp⟩
    · rintro ⟨hm, hqp, hfp, htp⟩
      exact ⟨hm, (queryPass_iff q r hq).mpr hqp, (fromPass_iff dateFrom r).mpr hfp,
        (toPass_iff dateTo r).mpr htp⟩
  · have hs := @List.sorted_mergeSort VinRecord
      (fun a b => decide (b.createdAt ≤ a.createdAt))
      (fun a b c hab hbc => by
        simp only [decide_eq_true_eq] at hab hbc ⊢
        omega)
      (fun a b => by
        simp only [Bool.or_eq_true, decide_eq_true_eq]
        omega)
      (store.filter (searchFilter q dateFrom dateTo))
    exact hs.imp fun h => by simpa using h

/-- Witness for `search_conjunctive_filters_ordered`: searching `8263` with
date bounds finds the sample record. -/
theorem search_conjunctive_filters_ordered_witness :
    sampleRecord ∈ searchVins [sampleRecord] (some "8263") (some 0) (some 1) := by
  have h := (search_conjunctive_filters_ordered [sampleRecord] (some "8263")
    (some 0) (some 1) (fun qs hqs => by cases hqs; decide)).1 sampleRecord
  exact h.mpr ⟨by decide, fun qs hqs => by cases hqs; decide,
    fun df hdf => by cases hdf; decide, fun dt hdt => by cases hdt; decide⟩

/- ===================== GET /api/vins/stats ===================== -/

structure VinStats where
  total : Nat
  today : Nat
  thisWeek : Nat
  thisMonth : Nat
deriving DecidableEq, Repr

/-- `GET /api/vins/stats` (src/server.js:597-619): `total` = `COUNT(*)`;
`today` = rows with `DATE(created_at) = CURRENT_DATE`; `thisWeek` = rows with
`created_at >= CURRENT_DATE - INTERVAL '7 days'` (midnight of the day seven
days before the current date); `thisMonth` = rows whose `created_at` has the
current year and month (`EXTRACT`). -/
def statsVins (store : List VinRecord) (now : Int) : VinStats :=
  { total := store.length
  , today := (store.filter fun r => dayNumber r.createdAt == dayNumber now).length
  , thisWeek := (store.filter fun r =>
      decide ((dayNumber now - 7) * msPerDay ≤ r.createdAt)).length
  , thisMonth := (store.filter fun r =>
      (civilOfInstant r.createdAt).year == (civilOfInstant now).year &&
      (civilOfInstant r.createdAt).month == (civilOfInstant now).month).length }

/-- 2025-05-30 12:00:00 UTC, an arbitrary call instant. -/
def sampleNow : Int := 20238 * msPerDay + 12 * 3600000

/-- A record created 7 days and one hour before `sampleNow`. -/
def weekSampleRecord : VinRecord :=
  { id := 7, code := "5YJSA1DN5CFP01657", dateCreated := 0,
    userAgent := none, ipAddress := none,
    createdAt := sampleNow - 7 * msPerDay - 3600000 }

/-- **C8, counterexample.** The claim says `thisWeek` counts the records whose
`createdAt` lies within the trailing 7 days of the call instant.  The query
compares against `CURRENT_DATE - INTERVAL '7 days'` — midnight of the day
seven days before — so a record created 7 days and one hour before a noon
call is counted (its count is 1) although it is outside the trailing
7 × 24 h window of the instant. -/
theorem stats_thisWeek_midnight_counterexample :
    (statsVins [weekSampleRecord] sampleNow).thisWeek = 1
    ∧ ¬ (sampleNow - 7 * msPerDay ≤ weekSampleRecord.createdAt
         ∧ weekSampleRecord.createdAt ≤ sampleNow) := by
  constructor
  · decide
  · decide

/-- **C8, amended.** `total` counts all records; `today` counts the records
whose `createdAt` has the same calendar date as the call instant; `thisMonth`
counts those with the same calendar year and month; and `thisWeek` counts the
records whose `createdAt` date component is at most 7 days before the call
instant's date — i.e. `createdAt` at or after midnight of the day seven days
before the current date, not the trailing 7 × 24 hours of the instant. -/
theorem stats_buckets_characterization (store : List VinRecord) (now : Int) :
    (statsVins store now).total = store.length
    ∧ (statsVins store now).today
        = (store.filter fun r =>
            decide (civilOfInstant r.createdAt = civilOfInstant now)).length
    ∧ (statsVins store now).thisWeek
        = (store.filter fun r =>
            decide (dayNumber now - 7 ≤ dayNumber r.createdAt)).length
    ∧ (statsVins store now).thisMonth
        = (store.filter fun r =>
            decide ((civilOfInstant r.createdAt).year = (civilOfInstant now).year
              ∧ (civilOfInstant r.createdAt).month = (civilOfInstant now).month)).length := by
  refine ⟨rfl, ?_, ?_, ?_⟩
  · show (store.filter fun r => dayNumber r.createdAt == dayNumber now).length = _
    congr 1
    refine List.filter_congr fun r _ => ?_
    rw [Bool.eq_iff_iff, beq_iff_eq, decide_eq_true_eq]
    constructor
    · intro h
      unfold civilOfInstant
      rw [h]
    · intro h
      exact civilFromDays_injective h
  · show (store.filter fun r =>
        decide ((dayNumber now - 7) * msPerDay ≤ r.createdAt)).length = _
    congr 1
    refine List.filter_congr fun r _ => ?_
    rw [Bool.eq_iff_iff, decide_eq_true_eq, decide_eq_true_eq]
    exact (Int.le_ediv_iff_mul_le (by decide)).symm
  · show (store.filter fun r =>
        (civilOfInstant r.createdAt).year == (civilOfInstant now).year &&
        (civilOfInstant r.createdAt).month == (civilOfInstant now).month).length = _
    congr 1
    refine List.filter_congr fun r _ => ?_
    rw [Bool.eq_iff_iff, Bool.and_eq_true, beq_iff_eq, beq_iff_eq, decide_eq_true_eq]

/- ===================== POST /api/vins/import: row parsing ===================== -/

/-- A cell value as surfaced by the spreadsheet library to the import loop. -/
inductive Cell where
  | empty                -- absent cell (null/undefined)
  | strV (s : String)    -- text cell
  | dateV (t : Int)      -- native date cell, as an instant
  | numV (x : Int)       -- numeric cell
  | otherV               -- any other value type (rich text, formula object, ...)
deriving DecidableEq, Repr

/-- JavaScript truthiness of a cell value (`!cell` tests). -/
def Cell.truthy : Cell → Bool
  | .empty => false
  | .strV s => !(s == "")
  | .dateV _ => true
  | .numV x => !(x == 0)
  | .otherV => true

/-- The cells the importer reads from a data row (src/server.js:456-460):
column B (code), C (date recorded), E (user agent), F (source address). -/
structure RawRow where
  codeCell : Cell
  dateCell : Cell
  uaCell : Cell
  ipCell : Cell
deriving DecidableEq, Repr

/-- Rendering of a truthy cell by JavaScript `toString()` (model of the host
rendering; only the string case is exercised by the theorems below). -/
def cellToString : Cell → String
  | .strV s => s
  | .numV x => toString x
  | .dateV _ => "[Date]"
  | _ => ""

def dval (c : Char) : Nat := c.toNat - 48

def digitChar : Nat → Char
  | 0 => '0'
  | 1 => '1'
  | 2 => '2'
  | 3 => '3'
  | 4 => '4'
  | 5 => '5'
  | 6 => '6'
  | 7 => '7'
  | 8 => '8'
  | 9 => '9'
  | _ => '?'

/-- `(\d{1,2})` — one or two digits, greedy.  In the date regex every
`(\d{1,2})` group is followed by a non-digit (`\/`, `:`) or ends the pattern,
so committing to two digits when two are available is equivalent to the
engine's backtracking. -/
def readTwoDigits : List Char → Option (Nat × List Char)
  | c1 :: c2 :: rest =>
    if isDigitCh c1 then
      if isDigitCh c2 then some (dval c1 * 10 + dval c2, rest)
      else some (dval c1, c2 :: rest)
    else none
  | [c1] => if isDigitCh c1 then some (dval c1, []) else none
  | [] => none

/-- `(\d{4})` — exactly four digits. -/
def readFourDigits : List Char → Option (Nat × List Char)
  | c1 :: c2 :: c3 :: c4 :: rest =>
    if isDigitCh c1 && isDigitCh c2 && isDigitCh c3 && isDigitCh c4 then
      some (((dval c1 * 10 + dval c2) * 10 + dval c3) * 10 + dval c4, rest)
    else none
  | _ => none

def expectChar (c : Char) : List Char → Option (List Char)
  | c2 :: rest => if c2 = c then some rest else none
  | [] => none

/-- Match of `(\d{1,2})\/(\d{1,2})\/(\d{4})\s*(\d{1,2}):(\d{1,2}):(\d{1,2})`
(src/server.js:490) anchored at the head of `l`, returning the six captures
day, month, year, hour, minute, second.  `\s*` is greedy; giving characters
back cannot help since the following group needs a digit. -/
def frenchAt (l : List Char) : Option (Nat × Nat × Nat × Nat × Nat × Nat) :=
  match readTwoDigits l with
  | none => none
  | some (d, l1) =>
    match expectChar '/' l1 with
    | none => none
    | some l2 =>
      match readTwoDigits l2 with
      | none => none
      | some (m, l3) =>
        match expectChar '/' l3 with
        | none => none
        | some l4 =>
          match readFourDigits l4 with
          | none => none
          | some (y, l5) =>
            match readTwoDigits (l5.dropWhile jsWhitespace) with
            | none => none
            | some (h, l7) =>
              match expectChar ':' l7 with
              | none => none
              | some l8 =>
                match readTwoDigits l8 with
                | none => none
                | some (mi, l9) =>
                  match expectChar ':' l9 with
                  | none => none
                  | some l10 =>
                    match readTwoDigits l10 with
                    | none => none
                    | some (sec, _) => some (d, m, y, h, mi, sec)

/-- The unanchored regex search: leftmost start position at which the date
pattern matches. -/
def frenchMatch : List Char → Option (Nat × Nat × Nat × Nat × Nat × Nat)
  | [] => none
  | c :: rest =>
    match frenchAt (c :: rest) with
    | some x => some x
    | none => frenchMatch rest

/-- The date conversion of the import loop (src/server.js:482-506): a native
date value is used as-is; a string is matched against the French
`DD/MM/YYYY HH:MM:SS` pattern (captures fed to
`new Date(year, month-1, day, hour, minute, second)`, day/month/year order)
and otherwise handed to the host's generic date parsing (`parseGeneric`,
`none` = invalid); every other value type is an unsupported format. -/
def convertDate (parseGeneric : String → Option Int) (rowNumber : Nat) :
    Cell → Except String Int
  | .dateV t => .ok t
  | .strV s =>
    match frenchMatch s.data with
    | some (d, m, y, h, mi, sec) =>
      .ok (jsDateCtor (y : Int) ((m : Int) - 1) (d : Int) (h : Int) (mi : Int) (sec : Int))
    | none =>
      match parseGeneric s with
      | some t => .ok t
      | none =>
        .error ("Ligne " ++ toString rowNumber ++ ": Format de date invalide \"" ++ s ++ "\"")
  | _ => .error ("Ligne " ++ toString rowNumber ++ ": Format de date non supporté")

deriving instance DecidableEq for Except

/-- A parsed candidate row, ready for insertion. -/
structure ImportVin where
  code : String
  date : Int
  userAgent : String
  ipAddress : String
deriving DecidableEq, Repr

/-- Per-row parsing and validation (src/server.js:455-519): the code cell must
be a non-empty string; the trimmed, uppercased code must pass `isValidVIN`;
the date cell must be truthy and convert; user agent and source address
default to the sentinels `Import Excel` / `Import`. -/
def parseRow (pg : String → Option Int) (rowNumber : Nat) (row : RawRow) :
    Except String ImportVin :=
  match row.codeCell with
  | .strV c =>
    if c == "" then .error ("Ligne " ++ toString rowNumber ++ ": Code VIN manquant ou invalide")
    else
      if ¬ isValidVIN (upper (String.mk (jsTrim c.data))) then
        .error ("Ligne " ++ toString rowNumber ++ ": VIN invalide \""
          ++ upper (String.mk (jsTrim c.data)) ++ "\"")
      else if ¬ row.dateCell.truthy then
        .error ("Ligne " ++ toString rowNumber ++ ": Date d'enregistrement manquante")
      else
        match convertDate pg rowNumber row.dateCell with
        | .error e => .error e
        | .ok t =>
          .ok
            { code := upper (String.mk (jsTrim c.data)), date := t,
              userAgent := if row.uaCell.truthy then cellToString row.uaCell else "Import Excel",
              ipAddress := if row.ipCell.truthy then cellToString row.ipCell else "Import" }
  | _ => .error ("Ligne " ++ toString rowNumber ++ ": Code VIN manquant ou invalide")

/-- One step of the `eachRow` phase: a parsed row is queued for insertion, a
failed row contributes its message to the error list and nothing else. -/
def parseStep (pg : String → Option Int) (acc : List ImportVin × List String)
    (entry : Nat × RawRow) : List ImportVin × List String :=
  match parseRow pg entry.1 entry.2 with
  | .ok v => (acc.1 ++ [v], acc.2)
  | .error e => (acc.1, acc.2 ++ [e])

/-- The `eachRow` phase over the data rows (row numbers paired with rows;
row 1, the header, is never passed in). -/
def parseRows (pg : String → Option Int) (rows : List (Nat × RawRow)) :
    List ImportVin × List String :=
  rows.foldl (parseStep pg) ([], [])

/- ===================== POST /api/vins/import: insertion loop ===================== -/

/-- State of the insertion loop (src/server.js:525-550). -/
structure ImportState where
  store : List VinRecord
  imported : Nat
  duplicates : Nat
  errors : List String
deriving DecidableEq, Repr

/-- One insertion attempt: a violation of the unique constraint
`vins_code_key` (a row with the same code already stored) increments
`duplicates`; any other storage failure (the oracle `fail`) appends its
message to the error list; success inserts the row and increments
`imported`. -/
def insertStep (fail : ImportVin → Option String) (now : Int) (st : ImportState)
    (v : ImportVin) : ImportState :=
  if st.store.any fun r => r.code == v.code then
    { st with duplicates := st.duplicates + 1 }
  else
    match fail v with
    | some msg => { st with errors := st.errors ++ [msg] }
    | none =>
      { st with
        store := st.store ++
          [{ id := st.store.length, code := v.code, dateCreated := v.date,
             userAgent := some v.userAgent, ipAddress := some v.ipAddress, createdAt := now }],
        imported := st.imported + 1 }

/-- The insertion loop: every candidate row is attempted; no failure aborts
the batch. -/
def insertLoop (fail : ImportVin → Option String) (now : Int) (st : ImportState)
    (vins : List ImportVin) : ImportState :=
  vins.foldl (insertStep fail now) st

/-- The response summary (src/server.js:560-575): `totalLines` is the number
of rows that survived parsing, `errors` the full error count, `errorsList`
the first 10 messages. -/
structure ImportSummary where
  totalLines : Nat
  imported : Nat
  duplicates : Nat
  errors : Nat
  errorsList : List String
deriving DecidableEq, Repr

/-- `POST /api/vins/import`, parsing phase then insertion phase then summary. -/
def importVins (pg : String → Option Int) (fail : ImportVin → Option String)
    (now : Int) (store : List VinRecord) (rows : List (Nat × RawRow)) :
    ImportSummary × List VinRecord :=
  let parsed := parseRows pg rows
  let st := insertLoop fail now
    { store := store, imported := 0, duplicates := 0, errors := parsed.2 } parsed.1
  ({ totalLines := parsed.1.length, imported := st.imported, duplicates := st.duplicates,
     errors := st.errors.length, errorsList := st.errors.take 10 }, st.store)

/- ===================== GET /api/vins/export ===================== -/

/-- Two-digit zero-padded rendering (`toLocaleString('fr-FR')` day, month,
hour, minute, second fields; all are in 0..99 for valid instants). -/
def pad2 (n : Int) : List Char :=
  if n < 10 then ['0', digitChar n.toNat]
  else [digitChar (n.toNat / 10), digitChar (n.toNat % 10)]

/-- Decimal rendering of the year field.  Four-digit years (the only ones the
round-trip theorems consider) are rendered explicitly; other nonnegative
years fall back to the library's decimal rendering.  (fr-FR renders years
before year 1 with an era suffix; such instants are not modelled.) -/
def decRender (y : Int) : List Char :=
  if 1000 ≤ y ∧ y ≤ 9999 then
    [digitChar (y.toNat / 1000), digitChar (y.toNat / 100 % 10),
     digitChar (y.toNat / 10 % 10), digitChar (y.toNat % 10)]
  else Nat.toDigits 10 y.toNat

/-- `new Date(ts).toLocaleString('fr-FR')` (src/server.js:686): the instant's
civil date and time in the session time zone as `DD/MM/YYYY HH:MM:SS`
(second precision: sub-second components are not rendered). -/
def frFRFormat (t : Int) : String :=
  String.mk (pad2 (civilOfInstant t).day ++ ('/' :: (pad2 (civilOfInstant t).month
    ++ ('/' :: (decRender (civilOfInstant t).year
    ++ (' ' :: (pad2 (msOfDay t / 3600000) ++ (':' :: (pad2 (msOfDay t % 3600000 / 60000)
    ++ (':' :: pad2 (msOfDay t % 60000 / 1000)))))))))))

/-- The cells of one exported data row (src/server.js:682-691) that the
importer reads back: column B carries the code, column C the formatted
`date_created`, columns E/F the provenance strings or their placeholders.
(Column D, the elapsed-time display string, is not read by the importer.) -/
def exportRow (r : VinRecord) : RawRow :=
  { codeCell := .strV r.code
  , dateCell := .strV (frFRFormat r.dateCreated)
  , uaCell := .strV (r.userAgent.getD "Non spécifié")
  , ipCell := .strV (r.ipAddress.getD "Non spécifié") }

lemma store_any_code_iff (l : List VinRecord) (code : String) :
    (l.any fun r => r.code == code) = true ↔ ∃ r ∈ l, r.code = code := by
  rw [List.any_eq_true]
  constructor
  · rintro ⟨r, hr, hb⟩; exact ⟨r, hr, by simpa using hb⟩
  · rintro ⟨r, hr, hb⟩; exact ⟨r, hr, by simpa using hb⟩

/-- **C3.** In the bulk-import insertion loop: a row whose insertion hits the
uniqueness conflict (a stored row already has its code) only increments the
duplicate counter — no message is appended; a row whose insertion fails for
any other reason (`fail` returns a message) only appends that message — the
duplicate counter is untouched; and no per-row outcome aborts the batch: the
loop always continues with the remaining rows from the stepped state. -/
theorem import_insertion_conflict_vs_error (fail : ImportVin → Option String)
    (now : Int) (st : ImportState) (v : ImportVin) (rest : List ImportVin) :
    ((∃ r ∈ st.store, r.code = v.code) →
        insertStep fail now st v = { st with duplicates := st.duplicates + 1 })
    ∧ ((¬ ∃ r ∈ st.store, r.code = v.code) → ∀ msg, fail v = some msg →
        insertStep fail now st v = { st with errors := st.errors ++ [msg] })
    ∧ insertLoop fail now st (v :: rest)
        = insertLoop fail now (insertStep fail now st v) rest := by
  refine ⟨?_, ?_, rfl⟩
  · intro hdup
    unfold insertStep
    rw [if_pos ((store_any_code_iff st.store v.code).mpr hdup)]
  · intro hnodup msg hmsg
    unfold insertStep
    rw [if_neg (fun hb => hnodup ((store_any_code_iff st.store v.code).mp hb)), hmsg]

/-- A parsed candidate row, duplicating the sample record's code. -/
def sampleImportVin : ImportVin :=
  { code := "1HGCM82633A123456", date := 0, userAgent := "UA", ipAddress := "IP" }

/-- Witness for `import_insertion_conflict_vs_error`: importing the sample
code against a store that already holds it bumps `duplicates` only. -/
theorem import_insertion_conflict_witness :
    insertStep (fun _ => none) 0 ⟨[sampleRecord], 0, 0, []⟩ sampleImportVin
      = ⟨[sampleRecord], 0, 1, []⟩ :=
  (import_insertion_conflict_vs_error (fun _ => none) 0 ⟨[sampleRecord], 0, 0, []⟩
      sampleImportVin []).1 ⟨sampleRecord, by decide, by decide⟩

lemma insertLoop_counts (fail : ImportVin → Option String) (now : Int)
    (vins : List ImportVin) : ∀ st : ImportState,
    (insertLoop fail now st vins).imported + (insertLoop fail now st vins).duplicates
      + (insertLoop fail now st vins).errors.length
    = st.imported + st.duplicates + st.errors.length + vins.length := by
  induction vins with
  | nil => intro st; rfl
  | cons v rest ih =>
    intro st
    have hstep : insertLoop fail now st (v :: rest)
        = insertLoop fail now (insertStep fail now st v) rest := rfl
    rw [hstep, ih (insertStep fail now st v)]
    have : (insertStep fail now st v).imported + (insertStep fail now st v).duplicates
        + (insertStep fail now st v).errors.length
        = st.imported + st.duplicates + st.errors.length + 1 := by
      unfold insertStep
      by_cases hb : (st.store.any fun r => r.code == v.code) = true
      · rw [if_pos hb]
        show st.imported + (st.duplicates + 1) + st.errors.length = _
        omega
      · rw [if_neg hb]
        cases hf : fail v with
        | some msg =>
          show st.imported + st.duplicates + (st.errors ++ [msg]).length = _
          rw [List.length_append]
          show st.imported + st.duplicates + (st.errors.length + 1) = _
          omega
        | none =>
          show st.imported + 1 + st.duplicates + st.errors.length = _
          omega
    rw [List.length_cons]
    omega

lemma insertLoop_errors_monotone (fail : ImportVin → Option String) (now : Int)
    (vins : List ImportVin) : ∀ st : ImportState,
    st.errors.length ≤ (insertLoop fail now st vins).errors.length := by
  induction vins with
  | nil => intro st; exact le_refl _
  | cons v rest ih =>
    intro st
    have hstep : insertLoop fail now st (v :: rest)
        = insertLoop fail now (insertStep fail now st v) rest := rfl
    rw [hstep]
    refine le_trans ?_ (ih (insertStep fail now st v))
    unfold insertStep
    by_cases hb : (st.store.any fun r => r.code == v.code) = true
    · rw [if_pos hb]
    · rw [if_neg hb]
      cases hf : fail v with
      | some msg =>
        show st.errors.length ≤ (st.errors ++ [msg]).length
        rw [List.length_append]
        omega
      | none => exact le_refl _

/-- **C9.** After a completed bulk import,
`imported + duplicates + errors = totalLines + (parse-stage error count)`,
i.e. each of the `totalLines` candidate rows that survived parsing accounts
for exactly one of: an imported row, a duplicate, or an insertion-stage error
message; in particular `imported + duplicates ≤ totalLines`. -/
theorem import_summary_count_invariant (pg : String → Option Int)
    (fail : ImportVin → Option String) (now : Int) (store : List VinRecord)
    (rows : List (Nat × RawRow)) :
    (importVins pg fail now store rows).1.imported
      + (importVins pg fail now store rows).1.duplicates
      + (importVins pg fail now store rows).1.errors
    = (importVins pg fail now store rows).1.totalLines + (parseRows pg rows).2.length
    ∧ (importVins pg fail now store rows).1.imported
      + (importVins pg fail now store rows).1.duplicates
      ≤ (importVins pg fail now store rows).1.totalLines := by
  have h : (insertLoop fail now
        { store := store, imported := 0, duplicates := 0, errors := (parseRows pg rows).2 }
        (parseRows pg rows).1).imported
      + (insertLoop fail now
        { store := store, imported := 0, duplicates := 0, errors := (parseRows pg rows).2 }
        (parseRows pg rows).1).duplicates
      + (insertLoop fail now
        { store := store, imported := 0, duplicates := 0, errors := (parseRows pg rows).2 }
        (parseRows pg rows).1).errors.length
      = 0 + 0 + (parseRows pg rows).2.length + (parseRows pg rows).1.length :=
    insertLoop_counts fail now (parseRows pg rows).1
      { store := store, imported := 0, duplicates := 0, errors := (parseRows pg rows).2 }
  constructor
  · show (insertLoop fail now _ _).imported + (insertLoop fail now _ _).duplicates
      + (insertLoop fail now _ _).errors.length = (parseRows pg rows).1.length + _
    omega
  · have hmono : ((parseRows pg rows).2).length ≤ (insertLoop fail now
        { store := store, imported := 0, duplicates := 0, errors := (parseRows pg rows).2 }
        (parseRows pg rows).1).errors.length :=
      insertLoop_errors_monotone fail now (parseRows pg rows).1
        { store := store, imported := 0, duplicates := 0, errors := (parseRows pg rows).2 }
    show (insertLoop fail now _ _).imported + (insertLoop fail now _ _).duplicates
      ≤ (parseRows pg rows).1.length
    omega

/- ===================== C4: date parsing strategy order ===================== -/

/-- C4 claim-side strategy (a): a native date value, used as-is. -/
def strategyNative : Cell → Option Int
  | .dateV t => some t
  | _ => none

/-- C4 claim-side strategy (b): the textual `DD/MM/YYYY HH:MM:SS` pattern,
captures interpreted as day/month/year (day goes to the day argument of the
date constructor, the first capture being the day). -/
def strategyFrench : Cell → Option Int
  | .strV s =>
    match frenchMatch s.data with
    | some (d, m, y, h, mi, sec) =>
      some (jsDateCtor (y : Int) ((m : Int) - 1) (d : Int) (h : Int) (mi : Int) (sec : Int))
    | none => none
  | _ => none

/-- C4 claim-side strategy (c): generic free-form date parsing. -/
def strategyGeneric (pg : String → Option Int) : Cell → Option Int
  | .strV s => pg s
  | _ => none

/-- Try an ordered list of parser strategies, first success wins. -/
def firstStrategy : List (Cell → Option Int) → Cell → Option Int
  | [], _ => none
  | f :: rest, c =>
    match f c with
    | some t => some t
    | none => firstStrategy rest c

/-- The claim's ordered strategy chain: (a) native, (b) pattern, (c) generic. -/
def specConvert (pg : String → Option Int) (c : Cell) : Option Int :=
  firstStrategy [strategyNative, strategyFrench, strategyGeneric pg] c

def exceptToOption : Except String Int → Option Int
  | .ok t => some t
  | .error _ => none

lemma convertDate_eq_spec (pg : String → Option Int) (n : Nat) (c : Cell) :
    exceptToOption (convertDate pg n c) = specConvert pg c := by
  cases c with
  | dateV t => rfl
  | strV s =>
    show exceptToOption (convertDate pg n (.strV s)) = _
    cases hf : frenchMatch s.data with
    | some x =>
      obtain ⟨d, m, y, h, mi, sec⟩ := x
      simp [convertDate, hf, specConvert, firstStrategy, strategyNative, strategyFrench,
        strategyGeneric, exceptToOption]
    | none =>
      cases hp : pg s with
      | some t =>
        simp [convertDate, hf, hp, specConvert, firstStrategy, strategyNative,
          strategyFrench, strategyGeneric, exceptToOption]
      | none =>
        simp [convertDate, hf, hp, specConvert, firstStrategy, strategyNative,
          strategyFrench, strategyGeneric, exceptToOption]
  | empty => rfl
  | numV x => rfl
  | otherV => rfl

lemma parseRow_ok_convert (pg : String → Option Int) (n : Nat) (row : RawRow)
    (v : ImportVin) (h : parseRow pg n row = .ok v) :
    ∃ t, convertDate pg n row.dateCell = .ok t := by
  unfold parseRow at h
  split at h
  · rename_i c hc
    by_cases h1 : (c == "") = true
    · rw [if_pos h1] at h; exact absurd h (by simp)
    · rw [if_neg h1] at h
      by_cases h2 : ¬ isValidVIN (upper (String.mk (jsTrim c.data))) = true
      · rw [if_pos h2] at h; exact absurd h (by simp)
      · rw [if_neg h2] at h
        by_cases h3 : ¬ row.dateCell.truthy = true
        · rw [if_pos h3] at h; exact absurd h (by simp)
        · rw [if_neg h3] at h
          cases hcd : convertDate pg n row.dateCell with
          | error e => rw [hcd] at h; exact absurd h (by simp)
          | ok t => exact ⟨t, rfl⟩
  · exact absurd h (by simp)

/-- **C4.** The importer's date conversion equals the claim's ordered
strategy chain — (a) a native date value as-is, else (b) the
`DD/MM/YYYY HH:MM:SS` pattern read as day/month/year, else (c) generic
parsing, else failure (also for unsupported value types); a row whose
conversion fails (all strategies `none`) is reported as a per-row error, and
an errored row contributes its message to the error list and is not queued
for insertion. -/
theorem import_date_parse_strategy_order (pg : String → Option Int) (n : Nat) (c : Cell) :
    exceptToOption (convertDate pg n c) = specConvert pg c
    ∧ (∀ row : RawRow, specConvert pg row.dateCell = none →
        ∃ e, parseRow pg n row = .error e)
    ∧ (∀ (row : RawRow) (e : String), parseRow pg n row = .error e →
        ∀ acc : List ImportVin × List String,
          parseStep pg acc (n, row) = (acc.1, acc.2 ++ [e])) := by
  refine ⟨convertDate_eq_spec pg n c, ?_, ?_⟩
  · intro row hnone
    cases hres : parseRow pg n row with
    | error e => exact ⟨e, rfl⟩
    | ok v =>
      exfalso
      obtain ⟨t, ht⟩ := parseRow_ok_convert pg n row v hres
      have := convertDate_eq_spec pg n row.dateCell
      rw [ht, hnone] at this
      exact absurd this (by simp [exceptToOption])
  · intro row e hres acc
    show (match parseRow pg n row with
      | .ok v => (acc.1 ++ [v], acc.2)
      | .error e2 => (acc.1, acc.2 ++ [e2])) = _
    rw [hres]

/-- A row whose code is fine but whose date cell parses with no strategy. -/
def badDateRow : RawRow :=
  { codeCell := .strV "1HGCM82633A123456", dateCell := .strV "pas une date",
    uaCell := .empty, ipCell := .empty }

/-- Witness for `import_date_parse_strategy_order`: with a host parser that
accepts nothing, a row whose date cell defeats all three strategies is
reported as a per-row error. -/
theorem import_date_parse_strategy_order_witness :
    ∃ e, parseRow (fun _ => none) 3 badDateRow = .error e :=
  (import_date_parse_strategy_order (fun _ => none) 3 (Cell.strV "pas une date")).2.1
    badDateRow (by decide)

/- ===================== C5: export/import round trip ===================== -/

lemma digitChar_isDigit (k : Nat) (h : k ≤ 9) : isDigitCh (digitChar k) = true := by
  interval_cases k <;> decide

lemma dval_digitChar (k : Nat) (h : k ≤ 9) : dval (digitChar k) = k := by
  interval_cases k <;> decide

lemma digitChar_not_ws (k : Nat) (h : k ≤ 9) : jsWhitespace (digitChar k) = false := by
  interval_cases k <;> decide

lemma readTwo_two_digits (a b : Nat) (ha : a ≤ 9) (hb : b ≤ 9) (rest : List Char) :
    readTwoDigits (digitChar a :: digitChar b :: rest) = some (a * 10 + b, rest) := by
  show (if isDigitCh (digitChar a) = true then
      if isDigitCh (digitChar b) = true then
        some (dval (digitChar a) * 10 + dval (digitChar b), rest)
      else some (dval (digitChar a), digitChar b :: rest)
    else none) = _
  rw [if_pos (digitChar_isDigit a ha), if_pos (digitChar_isDigit b hb),
    dval_digitChar a ha, dval_digitChar b hb]

lemma readTwo_pad2 (n : Int) (h0 : 0 ≤ n) (h1 : n ≤ 99) (rest : List Char) :
    readTwoDigits (pad2 n ++ rest) = some (n.toNat, rest) := by
  unfold pad2
  split_ifs with hlt
  · show readTwoDigits (digitChar 0 :: digitChar n.toNat :: rest) = _
    rw [readTwo_two_digits 0 n.toNat (by omega) (by omega)]
    norm_num
  · show readTwoDigits (digitChar (n.toNat / 10) :: digitChar (n.toNat % 10) :: rest) = _
    rw [readTwo_two_digits _ _ (by omega) (by omega)]
    have harith : n.toNat / 10 * 10 + n.toNat % 10 = n.toNat := by omega
    rw [harith]

lemma readFour_four_digits (a b c d : Nat) (ha : a ≤ 9) (hb : b ≤ 9) (hc : c ≤ 9)
    (hd : d ≤ 9) (rest : List Char) :
    readFourDigits (digitChar a :: digitChar b :: digitChar c :: digitChar d :: rest)
      = some (((a * 10 + b) * 10 + c) * 10 + d, rest) := by
  show (if (isDigitCh (digitChar a) && isDigitCh (digitChar b) && isDigitCh (digitChar c)
        && isDigitCh (digitChar d)) = true then
      some (((dval (digitChar a) * 10 + dval (digitChar b)) * 10 + dval (digitChar c)) * 10
        + dval (digitChar d), rest)
    else none) = _
  rw [if_pos (by rw [digitChar_isDigit a ha, digitChar_isDigit b hb, digitChar_isDigit c hc,
    digitChar_isDigit d hd]; rfl),
    dval_digitChar a ha, dval_digitChar b hb, dval_digitChar c hc, dval_digitChar d hd]

lemma readFour_decRender (y : Int) (h0 : 1000 ≤ y) (h1 : y ≤ 9999) (rest : List Char) :
    readFourDigits (decRender y ++ rest) = some (y.toNat, rest) := by
  unfold decRender
  rw [if_pos ⟨h0, h1⟩]
  show readFourDigits (digitChar (y.toNat / 1000) :: digitChar (y.toNat / 100 % 10)
    :: digitChar (y.toNat / 10 % 10) :: digitChar (y.toNat % 10) :: rest) = _
  rw [readFour_four_digits _ _ _ _ (by omega) (by omega) (by omega) (by omega)]
  have harith : ((y.toNat / 1000 * 10 + y.toNat / 100 % 10) * 10 + y.toNat / 10 % 10) * 10
      + y.toNat % 10 = y.toNat := by omega
  rw [harith]

lemma expectChar_cons (c : Char) (rest : List Char) :
    expectChar c (c :: rest) = some rest := by
  show (if c = c then some rest else none) = some rest
  rw [if_pos rfl]

lemma dropWhile_ws_pad2 (n : Int) (h0 : 0 ≤ n) (h1 : n ≤ 99) (rest : List Char) :
    List.dropWhile jsWhitespace (pad2 n ++ rest) = pad2 n ++ rest := by
  unfold pad2
  split_ifs with hlt
  · show List.dropWhile jsWhitespace (digitChar 0 :: digitChar n.toNat :: rest) = _
    rw [List.dropWhile_cons_of_neg (by rw [digitChar_not_ws 0 (by omega)]; simp)]
    rfl
  · show List.dropWhile jsWhitespace
        (digitChar (n.toNat / 10) :: digitChar (n.toNat % 10) :: rest) = _
    rw [List.dropWhile_cons_of_neg (by rw [digitChar_not_ws _ (by omega)]; simp)]
    rfl

lemma frenchAt_format (D M Y H MI S : Int)
    (hD : 0 ≤ D ∧ D ≤ 99) (hM : 0 ≤ M ∧ M ≤ 99) (hY : 1000 ≤ Y ∧ Y ≤ 9999)
    (hH : 0 ≤ H ∧ H ≤ 99) (hMI : 0 ≤ MI ∧ MI ≤ 99) (hS : 0 ≤ S ∧ S ≤ 99) :
    frenchAt (pad2 D ++ ('/' :: (pad2 M ++ ('/' :: (decRender Y
      ++ (' ' :: (pad2 H ++ (':' :: (pad2 MI ++ (':' :: pad2 S))))))))))
    = some (D.toNat, M.toNat, Y.toNat, H.toNat, MI.toNat, S.toNat) := by
  have hdw : ∀ l : List Char,
      List.dropWhile jsWhitespace (' ' :: l) = List.dropWhile jsWhitespace l :=
    fun l => List.dropWhile_cons_of_pos (by decide)
  have hlast : readTwoDigits (pad2 S) = some (S.toNat, []) := by
    have h2 := readTwo_pad2 S hS.1 hS.2 []
    rwa [List.append_nil] at h2
  unfold frenchAt
  simp only [readTwo_pad2 D hD.1 hD.2, expectChar_cons, readTwo_pad2 M hM.1 hM.2,
    readFour_decRender Y hY.1 hY.2, hdw, dropWhile_ws_pad2 H hH.1 hH.2,
    readTwo_pad2 H hH.1 hH.2, readTwo_pad2 MI hMI.1 hMI.2, hlast]

lemma frenchMatch_of_head (l : List Char) (x : Nat × Nat × Nat × Nat × Nat × Nat)
    (h : frenchAt l = some x) : frenchMatch l = some x := by
  cases l with
  | nil =>
    rw [show frenchAt ([] : List Char) = none from rfl] at h
    cases h
  | cons c rest =>
    show (match frenchAt (c :: rest) with
      | some y => some y
      | none => frenchMatch rest) = some x
    rw [h]

set_option maxHeartbeats 1000000 in
/-- The civil date produced by `civilFromDays` is well-formed: month in 1..12,
day in 1..31. -/
lemma civilFromDays_month_day_bounds (z : Int) :
    1 ≤ (civilFromDays z).month ∧ (civilFromDays z).month ≤ 12
    ∧ 1 ≤ (civilFromDays z).day ∧ (civilFromDays z).day ≤ 31 := by
  set era := (z + 719468) / 146097 with hera
  set doe := (z + 719468) % 146097 with hdoe
  set c := if doe / 36524 ≤ 3 then doe / 36524 else 3 with hc
  set remc := doe - 36524 * c with hremc
  set q := remc / 1461 with hq
  set remy := remc - 1461 * q with hremy
  set yr := if remy / 365 ≤ 3 then remy / 365 else 3 with hyr
  set doy := remy - 365 * yr with hdoy
  set yoe := 100 * c + 4 * q + yr with hyoe
  set mp := (5 * doy + 2) / 153 with hmp
  set d := doy - (153 * mp + 2) / 5 + 1 with hd
  set m := if mp < 10 then mp + 3 else mp - 9 with hm
  rw [civilFromDays_core z era doe c remc q remy yr doy yoe mp d m
    hera hdoe hc hremc hq hremy hyr hdoy hyoe hmp hd hm]
  have bdoe : 0 ≤ doe ∧ doe ≤ 146096 := by rw [hdoe]; omega
  have bc : 0 ≤ c ∧ c ≤ 3 := by rw [hc]; split_ifs <;> omega
  have bremc : 0 ≤ remc ∧ remc ≤ 36524 := by rw [hremc, hc]; split_ifs <;> omega
  have bq : 0 ≤ q ∧ q ≤ 24 := by rw [hq]; omega
  have bremy : 0 ≤ remy ∧ remy ≤ 1460 := by rw [hremy, hq]; omega
  have byr : 0 ≤ yr ∧ yr ≤ 3 := by rw [hyr]; split_ifs <;> omega
  have bdoy : 0 ≤ doy ∧ doy ≤ 365 := by rw [hdoy, hyr]; split_ifs <;> omega
  have bmp : 0 ≤ mp ∧ mp ≤ 11 := by rw [hmp]; omega
  have bd : 1 ≤ d ∧ d ≤ 31 := by rw [hd, hmp]; omega
  have bm : 1 ≤ m ∧ m ≤ 12 := by rw [hm]; split_ifs <;> omega
  exact ⟨bm.1, bm.2, bd.1, bd.2⟩

set_option maxHeartbeats 1000000 in
/-- Reimporting the fr-FR rendering of an instant recovers the instant
truncated to whole seconds. -/
lemma convertDate_frFRFormat (pg : String → Option Int) (n : Nat) (t : Int)
    (hy : 1000 ≤ (civilOfInstant t).year ∧ (civilOfInstant t).year ≤ 9999) :
    convertDate pg n (.strV (frFRFormat t)) = .ok (t - t % 1000) := by
  have hco : civilOfInstant t = civilFromDays (dayNumber t) := rfl
  have hb := civilFromDays_month_day_bounds (dayNumber t)
  rw [← hco] at hb
  have hms : 0 ≤ msOfDay t ∧ msOfDay t < 86400000 := by unfold msOfDay msPerDay; omega
  have hH : 0 ≤ msOfDay t / 3600000 ∧ msOfDay t / 3600000 ≤ 99 := by omega
  have hMI : 0 ≤ msOfDay t % 3600000 / 60000 ∧ msOfDay t % 3600000 / 60000 ≤ 99 := by omega
  have hS : 0 ≤ msOfDay t % 60000 / 1000 ∧ msOfDay t % 60000 / 1000 ≤ 99 := by omega
  have hmatch : frenchMatch (frFRFormat t).data
      = some ((civilOfInstant t).day.toNat, (civilOfInstant t).month.toNat,
          (civilOfInstant t).year.toNat, (msOfDay t / 3600000).toNat,
          (msOfDay t % 3600000 / 60000).toNat, (msOfDay t % 60000 / 1000).toNat) := by
    apply frenchMatch_of_head
    exact frenchAt_format (civilOfInstant t).day (civilOfInstant t).month
      (civilOfInstant t).year (msOfDay t / 3600000) (msOfDay t % 3600000 / 60000)
      (msOfDay t % 60000 / 1000)
      ⟨by omega, by omega⟩ ⟨by omega, by omega⟩ hy hH hMI hS
  show (match frenchMatch (frFRFormat t).data with
    | some (d, m, y, h, mi, sec) =>
      Except.ok (jsDateCtor (y : Int) ((m : Int) - 1) (d : Int) (h : Int) (mi : Int) (sec : Int))
    | none =>
      match pg (frFRFormat t) with
      | some t2 => Except.ok t2
      | none =>
        Except.error ("Ligne " ++ toString n ++ ": Format de date invalide \""
          ++ frFRFormat t ++ "\"")) = Except.ok (t - t % 1000)
  rw [hmatch]
  show Except.ok (jsDateCtor ((civilOfInstant t).year.toNat : Int)
      (((civilOfInstant t).month.toNat : Int) - 1) ((civilOfInstant t).day.toNat : Int)
      ((msOfDay t / 3600000).toNat : Int) ((msOfDay t % 3600000 / 60000).toNat : Int)
      ((msOfDay t % 60000 / 1000).toNat : Int)) = _
  have cy : ((civilOfInstant t).year.toNat : Int) = (civilOfInstant t).year :=
    Int.toNat_of_nonneg (by omega)
  have cm : ((civilOfInstant t).month.toNat : Int) = (civilOfInstant t).month :=
    Int.toNat_of_nonneg (by omega)
  have cd : ((civilOfInstant t).day.toNat : Int) = (civilOfInstant t).day :=
    Int.toNat_of_nonneg (by omega)
  have ch : ((msOfDay t / 3600000).toNat : Int) = msOfDay t / 3600000 :=
    Int.toNat_of_nonneg (by omega)
  have cmi : ((msOfDay t % 3600000 / 60000).toNat : Int) = msOfDay t % 3600000 / 60000 :=
    Int.toNat_of_nonneg (by omega)
  have cs : ((msOfDay t % 60000 / 1000).toNat : Int) = msOfDay t % 60000 / 1000 :=
    Int.toNat_of_nonneg (by omega)
  rw [cy, cm, cd, ch, cmi, cs]
  unfold jsDateCtor
  rw [jsMakeDay_eq_daysFromCivil (civilOfInstant t).year (civilOfInstant t).month
    (civilOfInstant t).day (by omega) (by omega)]
  rw [hco, daysFromCivil_civilFromDays (dayNumber t)]
  have : dayNumber t * 86400000
      + (msOfDay t / 3600000 * 3600000 + msOfDay t % 3600000 / 60000 * 60000
         + msOfDay t % 60000 / 1000 * 1000) = t - t % 1000 := by
    unfold dayNumber msOfDay msPerDay
    omega
  rw [this]

lemma vinChar_toNat_range (c : Char) (h : isVinChar c = true) :
    48 ≤ c.toNat ∧ c.toNat ≤ 90 := by
  have hA : ('A').toNat = 65 := rfl
  have hH : ('H').toNat = 72 := rfl
  have hJ : ('J').toNat = 74 := rfl
  have hN : ('N').toNat = 78 := rfl
  have hP : ('P').toNat = 80 := rfl
  have hR : ('R').toNat = 82 := rfl
  have hZ : ('Z').toNat = 90 := rfl
  have h0 : ('0').toNat = 48 := rfl
  have h9 : ('9').toNat = 57 := rfl
  simp only [isVinChar, Bool.or_eq_true, Bool.and_eq_true, decide_eq_true_eq,
    beq_iff_eq, char_le_iff_toNat, char_eq_iff_toNat,
    hA, hH, hJ, hN, hP, hR, hZ, h0, h9] at h
  omega

lemma vinChar_not_ws (c : Char) (h : isVinChar c = true) : jsWhitespace c = false := by
  have hr := vinChar_toNat_range c h
  have hsp : (' ').toNat = 32 := rfl
  have htb : ('\t').toNat = 9 := rfl
  have hnl : ('\n').toNat = 10 := rfl
  have hcr : ('\r').toNat = 13 := rfl
  simp only [jsWhitespace, Bool.or_eq_false_iff, beq_eq_false_iff_ne, ne_eq,
    char_eq_iff_toNat, hsp, htb, hnl, hcr]
  omega

lemma vinChar_toUpper_self (c : Char) (h : isVinChar c = true) : c.toUpper = c := by
  have hr := vinChar_toNat_range c h
  show Char.toUpper c = c
  unfold Char.toUpper
  simp only
  rw [if_neg (by omega)]

lemma dropWhile_eq_self_of_false {p : Char → Bool} {l : List Char}
    (h : ∀ c ∈ l, p c = false) : l.dropWhile p = l := by
  cases l with
  | nil => rfl
  | cons a l2 =>
    exact List.dropWhile_cons_of_neg (by rw [h a (List.mem_cons_self a l2)]; simp)

lemma valid_code_trim (code : String) (h : isValidVIN code = true) :
    jsTrim code.data = code.data := by
  have hall : ∀ c ∈ code.data, isVinChar c = true := by
    have h2 := h
    unfold isValidVIN at h2
    rw [Bool.and_eq_true, List.all_eq_true] at h2
    exact h2.2
  unfold jsTrim
  rw [dropWhile_eq_self_of_false (fun c hc => vinChar_not_ws c (hall c hc))]
  rw [dropWhile_eq_self_of_false
    (fun c hc => vinChar_not_ws c (hall c (List.mem_reverse.mp hc)))]
  exact List.reverse_reverse _

lemma valid_code_upper (code : String) (h : isValidVIN code = true) :
    upper code = code := by
  have hall : ∀ c ∈ code.data, isVinChar c = true := by
    have h2 := h
    unfold isValidVIN at h2
    rw [Bool.and_eq_true, List.all_eq_true] at h2
    exact h2.2
  show String.mk (code.data.map Char.toUpper) = code
  rw [List.map_congr_left (fun c hc => vinChar_toUpper_self c (hall c hc)), List.map_id']

lemma valid_code_ne_empty (code : String) (h : isValidVIN code = true) :
    (code == "") = false := by
  rw [beq_eq_false_iff_ne]
  intro he
  rw [he] at h
  exact absurd h (by decide)

lemma pad2_ne_nil (n : Int) : pad2 n ≠ [] := by
  unfold pad2
  split_ifs <;> simp

lemma frFRFormat_truthy (t : Int) : (Cell.strV (frFRFormat t)).truthy = true := by
  show (!(frFRFormat t == "")) = true
  rw [beq_eq_false_iff_ne.mpr, Bool.not_false]
  intro he
  have hd : (frFRFormat t).data = [] := by rw [he]
  unfold frFRFormat at hd
  exact absurd (List.append_eq_nil.mp hd).1 (pad2_ne_nil _)

lemma parseRow_ok_eval (pg : String → Option Int) (n : Nat) (row : RawRow) (c : String)
    (hc : row.codeCell = .strV c)
    (h1 : (c == "") = false)
    (h2 : isValidVIN (upper (String.mk (jsTrim c.data))) = true)
    (h3 : row.dateCell.truthy = true)
    (t : Int) (h4 : convertDate pg n row.dateCell = .ok t) :
    parseRow pg n row = .ok
      { code := upper (String.mk (jsTrim c.data)), date := t,
        userAgent := if row.uaCell.truthy then cellToString row.uaCell else "Import Excel",
        ipAddress := if row.ipCell.truthy then cellToString row.ipCell else "Import" } := by
  unfold parseRow
  split
  · rename_i c2 hc2
    rw [hc] at hc2
    cases hc2
    rw [if_neg (by rw [h1]; simp), if_neg (by rw [h2]; simp), if_neg (by rw [h3]; simp), h4]
  · rename_i hfn
    exact absurd hc (by intro hcc; exact hfn c hcc)

/-- A record whose `recordedAt` instant carries 500 milliseconds
(2025-05-30 12:00:00.500 UTC). -/
def msSampleRecord : VinRecord :=
  { id := 3, code := "1HGCM82633A123456",
    dateCreated := 20238 * msPerDay + 12 * 3600000 + 500,
    userAgent := none, ipAddress := none, createdAt := 0 }

/-- **C5, counterexample.** The claim says export-then-import reproduces
`recordedAt` exactly.  The export renders `date_created` via
`toLocaleString('fr-FR')`, which drops sub-second precision, so reimporting
the exported row of a record whose timestamp carries 500 ms yields the same
code but a different `recordedAt`. -/
theorem export_import_roundtrip_counterexample :
    ∃ v, parseRow (fun _ => none) 2 (exportRow msSampleRecord) = .ok v
      ∧ v.code = msSampleRecord.code
      ∧ v.date ≠ msSampleRecord.dateCreated := by
  refine
    ⟨{ code := "1HGCM82633A123456", date := 20238 * msPerDay + 12 * 3600000,
       userAgent := "Non spécifié", ipAddress := "Non spécifié" }, ?_, ?_, ?_⟩
  · decide
  · decide
  · decide

set_option maxHeartbeats 1000000 in
/-- **C5, amended.** For every stored record with a valid code and a
four-digit civil year, exporting and reimporting its row reproduces `code`
exactly and `recordedAt` truncated to whole seconds (the display format of
the date column carries second precision); when `recordedAt` has no
sub-second component, `recordedAt` round-trips exactly as claimed. -/
theorem export_import_roundtrip_truncates_to_seconds (pg : String → Option Int)
    (n : Nat) (r : VinRecord)
    (hcode : isValidVIN r.code = true)
    (hyear : 1000 ≤ (civilOfInstant r.dateCreated).year
      ∧ (civilOfInstant r.dateCreated).year ≤ 9999) :
    ∃ v, parseRow pg n (exportRow r) = .ok v
      ∧ v.code = r.code
      ∧ v.date = r.dateCreated - r.dateCreated % 1000
      ∧ (r.dateCreated % 1000 = 0 → v.date = r.dateCreated) := by
  have hcs : upper (String.mk (jsTrim r.code.data)) = r.code := by
    rw [valid_code_trim r.code hcode]
    exact valid_code_upper r.code hcode
  have h2 : isValidVIN (upper (String.mk (jsTrim r.code.data))) = true := by
    rw [hcs]; exact hcode
  have hrun := parseRow_ok_eval pg n (exportRow r) r.code rfl
    (valid_code_ne_empty r.code hcode) h2 (frFRFormat_truthy r.dateCreated)
    (r.dateCreated - r.dateCreated % 1000)
    (convertDate_frFRFormat pg n r.dateCreated hyear)
  refine ⟨_, hrun, ?_, rfl, ?_⟩
  · exact hcs
  · intro hms
    show r.dateCreated - r.dateCreated % 1000 = r.dateCreated
    omega

/-- Witness record for the amended round trip: whole-second timestamp
(2025-05-30 12:00:00.000 UTC). -/
def secSampleRecord : VinRecord :=
  { id := 4, code := "1HGCM82633A123456",
    dateCreated := 20238 * msPerDay + 12 * 3600000,
    userAgent := none, ipAddress := none, createdAt := 0 }

/-- Witness for `export_import_roundtrip_truncates_to_seconds` at a record
with a whole-second timestamp. -/
theorem export_import_roundtrip_truncates_witness :
    ∃ v, parseRow (fun _ => none) 2 (exportRow secSampleRecord) = .ok v
      ∧ v.code = secSampleRecord.code
      ∧ v.date = secSampleRecord.dateCreated - secSampleRecord.dateCreated % 1000
      ∧ (secSampleRecord.dateCreated % 1000 = 0 → v.date = secSampleRecord.dateCreated) :=
  export_import_roundtrip_truncates_to_seconds (fun _ => none) 2 secSampleRecord
    (by decide) (by decide)
